import Mathlib

/-!
# Verification of the dga_lab_v2 repository

Shallow embedding of the three Python programs `victim_v2.py`, `attacker_v2.py`
and `defende_v2.py`, together with proofs of the documented properties of the
shared DGA label generator, the attacker's set rotation and request matching,
the defender's feature extraction and classification, and the victim's
verdict-driven decision loop.

Machine integers are modelled as `Nat` with explicit reduction modulo `2^32`
where the 32-bit word arithmetic of SHA-256 overflows.  Python byte strings
are `List Nat` (each entry < 256), Python `str` is Lean `String` acting on its
`List Char` of code points, with the ASCII semantics of the string methods the
programs use.  Fallible or external behaviour (the fuel-bounded dedup loop,
the trained scikit-learn model, the defender's network reply) is modelled with
`Option`/`Except` and explicit oracle parameters.
-/

namespace DgaLab

/-! ## 32-bit word arithmetic (the word operations used by SHA-256) -/

/-- Reduce a natural number to a 32-bit word value. -/
def w32 (n : Nat) : Nat := n % 4294967296

/-- Right rotation of a 32-bit word by `n` bits. -/
def rotateRight32 (x n : Nat) : Nat := w32 ((x >>> n) ||| (x <<< (32 - n)))

/-- Bitwise complement of a 32-bit word. -/
def wnot (x : Nat) : Nat := x ^^^ 4294967295

/-! ## SHA-256 (the model of Python's `hashlib.sha256(...).digest()`)

The round constants are the FIPS 180-4 values: the first 32 bits of the
fractional parts of the cube roots (for `K`) and square roots (for the initial
hash value) of the first 64 (resp. 8) prime numbers.  We derive them from the
primes by exact integer root extraction rather than transcribing the tables.
-/

/-- Greatest `m` with `m^k ≤ n`, by fuel-bounded bisection. -/
def rootGo (k n : Nat) : Nat → Nat → Nat → Nat
  | lo, _, 0 => lo
  | lo, hi, fuel + 1 =>
    if hi ≤ lo + 1 then lo
    else
      let mid := (lo + hi) / 2
      if mid ^ k ≤ n then rootGo k n mid hi fuel else rootGo k n lo mid fuel

/-- `natCbrt n` is the greatest `m` with `m^3 ≤ n` (for the inputs used here). -/
def natCbrt (n : Nat) : Nat := rootGo 3 n 0 (n + 1) 200

/-- `natSqrt n` is the greatest `m` with `m^2 ≤ n` (for the inputs used here). -/
def natSqrt (n : Nat) : Nat := rootGo 2 n 0 (n + 1) 200

/-- The first 64 primes. -/
def primes64 : List Nat :=
  [2, 3, 5, 7, 11, 13, 17, 19, 23, 29, 31, 37, 41, 43, 47, 53,
   59, 61, 67, 71, 73, 79, 83, 89, 97, 101, 103, 107, 109, 113, 127, 131,
   137, 139, 149, 151, 157, 163, 167, 173, 179, 181, 191, 193, 197, 199, 211, 223,
   227, 229, 233, 239, 241, 251, 257, 263, 269, 271, 277, 281, 283, 293, 307, 311]

/-- SHA-256 round constants `K[0..63]`. -/
def sha256K : List Nat := primes64.map (fun p => w32 (natCbrt (p * 2 ^ 96)))

/-- SHA-256 initial hash value `H^(0)`, eight 32-bit words. -/
def sha256H0 : List Nat := (primes64.take 8).map (fun p => w32 (natSqrt (p * 2 ^ 64)))

/-- The eight-word working state of SHA-256. -/
structure Hash8 where
  a : Nat
  b : Nat
  c : Nat
  d : Nat
  e : Nat
  f : Nat
  g : Nat
  h : Nat

/-- Big-endian byte serialization of `v` into `n` bytes. -/
def bytesBE (n v : Nat) : List Nat :=
  (List.range n).map (fun i => (v >>> (8 * (n - 1 - i))) % 256)

/-- Split a list into consecutive chunks of `m + 1` elements; the first
argument is a structural-recursion fuel, in practice the list's length. -/
def chunksGo (m : Nat) : Nat → List α → List (List α)
  | _, [] => []
  | 0, _ :: _ => []
  | fuel + 1, x :: xs => ((x :: xs).take (m + 1)) :: chunksGo m fuel (xs.drop m)

/-- Split a list into consecutive chunks of `n` elements (`n ≥ 1`). -/
def chunksOf (n : Nat) (l : List α) : List (List α) := chunksGo (n - 1) l.length l

/-- Combine a big-endian list of bytes into one natural number. -/
def beCombine (bs : List Nat) : Nat := bs.foldl (fun acc b => acc * 256 + b) 0

/-- SHA-256 message padding: append `0x80`, zeros to 56 mod 64, then the
64-bit big-endian bit length. -/
def sha256Pad (msg : List Nat) : List Nat :=
  msg ++ [128] ++ List.replicate ((119 - msg.length % 64) % 64) 0
      ++ bytesBE 8 (8 * msg.length)

/-- The sixteen 32-bit message words of one 64-byte block. -/
def blockWords (block : List Nat) : List Nat := (chunksOf 4 block).map beCombine

/-- `σ₀` of the SHA-256 message schedule. -/
def sigmaSmall0 (x : Nat) : Nat := rotateRight32 x 7 ^^^ rotateRight32 x 18 ^^^ (x >>> 3)

/-- `σ₁` of the SHA-256 message schedule. -/
def sigmaSmall1 (x : Nat) : Nat := rotateRight32 x 17 ^^^ rotateRight32 x 19 ^^^ (x >>> 10)

/-- `Σ₀` of the SHA-256 round function. -/
def sigmaBig0 (x : Nat) : Nat := rotateRight32 x 2 ^^^ rotateRight32 x 13 ^^^ rotateRight32 x 22

/-- `Σ₁` of the SHA-256 round function. -/
def sigmaBig1 (x : Nat) : Nat := rotateRight32 x 6 ^^^ rotateRight32 x 11 ^^^ rotateRight32 x 25

/-- SHA-256 `Ch` function. -/
def chW (x y z : Nat) : Nat := (x &&& y) ^^^ (wnot x &&& z)

/-- SHA-256 `Maj` function. -/
def majW (x y z : Nat) : Nat := (x &&& y) ^^^ (x &&& z) ^^^ (y &&& z)

/-- Extend a 16-word schedule by `n` further words (to 64 in total). -/
def extendSchedule : List Nat → Nat → List Nat
  | ws, 0 => ws
  | ws, n + 1 =>
    let i := ws.length
    let w := w32 (sigmaSmall1 (ws.getD (i - 2) 0) + ws.getD (i - 7) 0
        + sigmaSmall0 (ws.getD (i - 15) 0) + ws.getD (i - 16) 0)
    extendSchedule (ws ++ [w]) n

/-- One SHA-256 round: state update for round `i` with schedule `ws`. -/
def sha256Round (ws : List Nat) (st : Hash8) (i : Nat) : Hash8 :=
  let t1 := w32 (st.h + sigmaBig1 st.e + chW st.e st.f st.g
      + sha256K.getD i 0 + ws.getD i 0)
  let t2 := w32 (sigmaBig0 st.a + majW st.a st.b st.c)
  ⟨w32 (t1 + t2), st.a, st.b, st.c, w32 (st.d + t1), st.e, st.f, st.g⟩

/-- SHA-256 compression of one 64-byte block into the running state. -/
def sha256Compress (st : Hash8) (block : List Nat) : Hash8 :=
  let ws := extendSchedule (blockWords block) 48
  let r := (List.range 64).foldl (sha256Round ws) st
  ⟨w32 (st.a + r.a), w32 (st.b + r.b), w32 (st.c + r.c), w32 (st.d + r.d),
   w32 (st.e + r.e), w32 (st.f + r.f), w32 (st.g + r.g), w32 (st.h + r.h)⟩

/-- The initial SHA-256 state as a `Hash8`. -/
def sha256Init : Hash8 :=
  ⟨sha256H0.getD 0 0, sha256H0.getD 1 0, sha256H0.getD 2 0, sha256H0.getD 3 0,
   sha256H0.getD 4 0, sha256H0.getD 5 0, sha256H0.getD 6 0, sha256H0.getD 7 0⟩

/-- SHA-256 of a byte string, as the 32-byte digest
(Python `hashlib.sha256(msg).digest()`). -/
def sha256 (msg : List Nat) : List Nat :=
  let final := (chunksOf 64 (sha256Pad msg)).foldl sha256Compress sha256Init
  bytesBE 4 final.a ++ bytesBE 4 final.b ++ bytesBE 4 final.c ++ bytesBE 4 final.d
    ++ bytesBE 4 final.e ++ bytesBE 4 final.f ++ bytesBE 4 final.g ++ bytesBE 4 final.h

/-! ## Base32 (the model of Python's `base64.b32encode`) -/

/-- The RFC 4648 base32 alphabet. -/
def b32Alphabet : List Char := "ABCDEFGHIJKLMNOPQRSTUVWXYZ234567".data

/-- Encode one input chunk of 1..5 bytes into 8 base32 symbols,
padding with `=` as RFC 4648 prescribes. -/
def b32EncodeChunk (chunk : List Nat) : List Char :=
  let k := chunk.length
  let v := beCombine (chunk ++ List.replicate (5 - k) 0)
  let cs := (List.range 8).map (fun i => b32Alphabet.getD ((v >>> (5 * (7 - i))) % 32) 'A')
  let dataChars := (8 * k + 4) / 5
  cs.take dataChars ++ List.replicate (8 - dataChars) '='

/-- Base32 encoding of a byte string (Python `base64.b32encode`). -/
def b32encode (bytes : List Nat) : List Char :=
  (chunksOf 5 bytes).flatMap b32EncodeChunk

/-! ## UTF-8 (the model of Python's `str.encode("utf-8")`) -/

/-- UTF-8 encoding of a single code point. -/
def utf8Char (c : Char) : List Nat :=
  let n := c.toNat
  if n < 128 then [n]
  else if n < 2048 then [192 ||| (n >>> 6), 128 ||| (n &&& 63)]
  else if n < 65536 then
    [224 ||| (n >>> 12), 128 ||| ((n >>> 6) &&& 63), 128 ||| (n &&& 63)]
  else
    [240 ||| (n >>> 18), 128 ||| ((n >>> 12) &&& 63),
     128 ||| ((n >>> 6) &&& 63), 128 ||| (n &&& 63)]

/-- UTF-8 encoding of a string (Python `s.encode("utf-8")`). -/
def utf8Encode (s : String) : List Nat := s.data.flatMap utf8Char

/-! ## Python `str` methods (ASCII semantics, as exercised by the programs) -/

/-- The upper/lower case letter pairs of ASCII. -/
def caseTable : List (Char × Char) :=
  [('A', 'a'), ('B', 'b'), ('C', 'c'), ('D', 'd'), ('E', 'e'), ('F', 'f'),
   ('G', 'g'), ('H', 'h'), ('I', 'i'), ('J', 'j'), ('K', 'k'), ('L', 'l'),
   ('M', 'm'), ('N', 'n'), ('O', 'o'), ('P', 'p'), ('Q', 'q'), ('R', 'r'),
   ('S', 's'), ('T', 't'), ('U', 'u'), ('V', 'v'), ('W', 'w'), ('X', 'x'),
   ('Y', 'y'), ('Z', 'z')]

/-- Lower-case one character (ASCII semantics of Python `str.lower`). -/
def lowerChar (c : Char) : Char :=
  match caseTable.find? (fun p => p.1 = c) with
  | some p => p.2
  | none => c

/-- Upper-case one character (ASCII semantics of Python `str.upper`). -/
def upperChar (c : Char) : Char :=
  match caseTable.find? (fun p => p.2 = c) with
  | some p => p.1
  | none => c

/-- Python `str.lower` (ASCII). -/
def pyLower (s : String) : String := String.mk (s.data.map lowerChar)

/-- Python `str.upper` (ASCII). -/
def pyUpper (s : String) : String := String.mk (s.data.map upperChar)

/-- The whitespace characters stripped by Python `str.strip()`. -/
def pyIsSpace (c : Char) : Bool :=
  c = ' ' || c = '\t' || c = '\n' || c = '\r' || c = '\x0b' || c = '\x0c'

/-- Drop leading and trailing whitespace from a character list. -/
def stripChars (l : List Char) : List Char :=
  ((l.dropWhile pyIsSpace).reverse.dropWhile pyIsSpace).reverse

/-- Python `str.strip()`: drop leading and trailing whitespace. -/
def pyStrip (s : String) : String := String.mk (stripChars s.data)

/-- The part of `cs` strictly before the last occurrence of `sep`
(meaningful when `sep ∈ cs`): Python `s.rsplit(sep, 1)[0]`. -/
def beforeLast (cs : List Char) (sep : Char) : List Char :=
  ((cs.reverse.dropWhile (fun c => c ≠ sep)).drop 1).reverse

/-- Python `c.isalnum()` on the ASCII characters the label pipeline produces. -/
def pyIsAlnum (c : Char) : Bool := c.isAlphanum

/-! ## victim_v2.py -/

namespace victim_v2

/-- `SEED` of victim_v2.py. -/
def SEED : String := "spreadlove"

/-- `SET_SIZE` of victim_v2.py. -/
def SET_SIZE : Nat := 10

/-- `TLD_LIST` of victim_v2.py. -/
def TLD_LIST : List String :=
  [".com", ".net", ".xyz", ".top", ".site", ".online", ".club", ".tk", ".pw", ".cc"]

/-- `generate_domain_label` of victim_v2.py: seed, time window and index are
formatted as `"{seed}:{timestamp_str}:{index}"`, UTF-8 encoded, SHA-256 hashed;
the digest is base32 encoded, lower-cased, stripped of `=` padding, filtered
to alphanumerics, truncated to `label_length`; a leading digit becomes `'a'`. -/
def generate_domain_label (seed timestamp_str : String) (index : Nat)
    (label_length : Nat := 12) : String :=
  let input_bytes := utf8Encode (seed ++ ":" ++ timestamp_str ++ ":" ++ Nat.repr index)
  let digest := sha256 input_bytes
  let b32 := ((b32encode digest).map lowerChar).filter (fun c => c ≠ '=')
  let label := (b32.filter pyIsAlnum).take label_length
  let label :=
    match label with
    | [] => []
    | c :: rest => if c.isDigit then 'a' :: rest else c :: rest
  String.mk label

/-- The body of the `while len(labels) < SET_SIZE` dedup loop shared by the two
`generate_set` functions, with an explicit fuel bound standing in for the
unbounded Python loop: `none` models the loop not finishing within `fuel`
iterations. -/
def collectLabels (seed timestamp_str : String) : Nat → Nat → List String → Option (List String)
  | fuel, i, labels =>
    if SET_SIZE ≤ labels.length then some labels
    else
      match fuel with
      | 0 => none
      | fuel' + 1 =>
        let label := generate_domain_label seed timestamp_str i
        collectLabels seed timestamp_str fuel' (i + 1)
          (if label ∈ labels then labels else labels ++ [label])

/-- `generate_set` of victim_v2.py, taking the already-formatted minute
timestamp (the `strftime("%Y%m%d%H%M")` of `set_time`) and a fuel bound for
the dedup loop: collect `SET_SIZE` unique labels, then append the `TLD_LIST`
entries positionally. -/
def generate_set (seed timestamp_str : String) (fuel : Nat) : Option (List String) :=
  (collectLabels seed timestamp_str fuel 0 []).map (fun labels =>
    (List.range labels.length).map (fun idx =>
      labels.getD idx "" ++ TLD_LIST.getD (idx % TLD_LIST.length) ""))

/-- A JSON value as far as the victim inspects one: a string, or anything else. -/
inductive JVal where
  | s (v : String)
  | other
deriving DecidableEq

/-- Python `dict.get(key, default)` on a JSON object. -/
def dictGet (d : List (String × JVal)) (key : String) (default : JVal) : JVal :=
  match d.find? (fun p => p.1 = key) with
  | some p => p.2
  | none => default

/-- The outcome of the HTTP POST to the defender, as the victim observes it:
a transport/status error (`requests.exceptions.RequestException`), a reply
whose body is not JSON (`ValueError`), or a parsed JSON object. -/
inductive DefenderReply where
  | reqError (e : String)
  | nonJson
  | ok (data : List (String × JVal))

/-- `send_to_defender` of victim_v2.py, the verdict field of its result:
on success the reply's `verdict` entry (defaulting to `"UNKNOWN"`), on a
request exception or non-JSON body the string `"UNKNOWN"`. -/
def send_to_defender (reply : DefenderReply) : JVal :=
  match reply with
  | .ok data => dictGet data "verdict" (.s "UNKNOWN")
  | .reqError _ => .s "UNKNOWN"
  | .nonJson => .s "UNKNOWN"

/-- What `handle_domain` does after obtaining the verdict. -/
inductive VictimAction where
  | connect
  | blockDGA
  | blockUnknown
deriving DecidableEq

/-- `handle_domain` of victim_v2.py, reduced to its decision: attempt the
simulated connection exactly on `verdict == "NOT_DGA"`, log-and-block on
`"DGA"`, and default to blocking on anything else. -/
def handle_domain (reply : DefenderReply) : VictimAction :=
  let verdict := send_to_defender reply
  if verdict = .s "NOT_DGA" then .connect
  else if verdict = .s "DGA" then .blockDGA
  else .blockUnknown

end victim_v2

/-! ## attacker_v2.py -/

namespace attacker_v2

/-- `SEED` of attacker_v2.py. -/
def SEED : String := "spreadlove"

/-- `SET_SIZE` of attacker_v2.py. -/
def SET_SIZE : Nat := 10

/-- `ACTIVE_PER_SET` of attacker_v2.py. -/
def ACTIVE_PER_SET : Nat := 5

/-- `LABEL_LENGTH` of attacker_v2.py. -/
def LABEL_LENGTH : Nat := 12

/-- `ALLOWED_DOMAINS` of attacker_v2.py. -/
def ALLOWED_DOMAINS : List String := ["google.com", "microsoft.com", "facebook.com"]

/-- `generate_domain_label` of attacker_v2.py (the same pipeline as the
victim's, with the default length spelled `LABEL_LENGTH`). -/
def generate_domain_label (seed timestamp_str : String) (index : Nat)
    (label_length : Nat := LABEL_LENGTH) : String :=
  let input_bytes := utf8Encode (seed ++ ":" ++ timestamp_str ++ ":" ++ Nat.repr index)
  let digest := sha256 input_bytes
  let b32 := ((b32encode digest).map lowerChar).filter (fun c => c ≠ '=')
  let label := (b32.filter pyIsAlnum).take label_length
  let label :=
    match label with
    | [] => []
    | c :: rest => if c.isDigit then 'a' :: rest else c :: rest
  String.mk label

/-- The `while len(labels) < SET_SIZE` dedup loop of attacker_v2.py's
`generate_set`, fuel-bounded as in the victim's model. -/
def collectLabels (seed timestamp_str : String) : Nat → Nat → List String → Option (List String)
  | fuel, i, labels =>
    if SET_SIZE ≤ labels.length then some labels
    else
      match fuel with
      | 0 => none
      | fuel' + 1 =>
        let label := generate_domain_label seed timestamp_str i
        collectLabels seed timestamp_str fuel' (i + 1)
          (if label ∈ labels then labels else labels ++ [label])

/-- `generate_set` of attacker_v2.py: `SET_SIZE` unique labels (no TLDs) for
the given time window, via the dedup loop. -/
def generate_set (seed timestamp_str : String) (fuel : Nat) : Option (List String) :=
  collectLabels seed timestamp_str fuel 0 []

/-- `random.sample(population, k)` modelled by the list of positions the
PRNG picked: the guarantees of `random.sample` (distinct in-range positions,
exactly `k` of them) become hypotheses on this index list. -/
def pySample (population : List String) (idxs : List Nat) : List String :=
  idxs.filterMap (fun i => population.get? i)

/-- One iteration of `rotate_sets_loop`: generate the set for this window and
publish it together with the randomly sampled active subset. -/
def rotate_step (seed timestamp_str : String) (fuel : Nat) (idxs : List Nat) :
    Option (List String × List String) :=
  (generate_set seed timestamp_str fuel).map (fun labels =>
    (labels, pySample labels idxs))

/-- `rotate_sets_loop` of attacker_v2.py: the sequence of `(current_labels,
current_active)` states it publishes, one per iteration, driven by the
per-iteration time window, loop fuel and sampled positions.  A `none` step
models the dedup loop never finishing, after which no further state is
published. -/
def rotate_sets_loop (seed : String) :
    List (String × Nat × List Nat) → List (List String × List String)
  | [] => []
  | (timestamp_str, fuel, idxs) :: rest =>
    match rotate_step seed timestamp_str fuel idxs with
    | none => []
    | some st => st :: rotate_sets_loop seed rest

/-- `domain_label_from_domain` of attacker_v2.py: strip, lower-case, and take
the part before the last dot (the whole string when there is no dot). -/
def domain_label_from_domain (domain : String) : String :=
  let domain := pyLower (pyStrip domain)
  if domain.data.contains '.' then String.mk (beforeLast domain.data '.') else domain

/-- How `catch_all` logs its decision. -/
inductive DecisionLog where
  | greeting
  | c2accept
  | dropped
  | ignored
deriving DecidableEq

/-- The requested domain as `catch_all` derives it: the Host header up to any
colon and lower-cased, else the first path segment lower-cased. -/
def requestedDomain (hostHeader path : String) : String :=
  let host := pyLower (String.mk (hostHeader.data.takeWhile (fun c => c ≠ ':')))
  if host ≠ "" then host else pyLower (String.mk (path.data.takeWhile (fun c => c ≠ '/')))

/-- `catch_all` of attacker_v2.py against a `(labels, active)` snapshot:
returns the response body, the HTTP status, and the log classification. -/
def catch_all (hostHeader path : String) (labels_snapshot active_snapshot : List String) :
    String × Nat × DecisionLog :=
  let requested_domain := requestedDomain hostHeader path
  let label := domain_label_from_domain requested_domain
  if requested_domain ∈ ALLOWED_DOMAINS then
    ("hi from " ++ requested_domain, 200, .greeting)
  else if label ∈ labels_snapshot then
    if label ∈ active_snapshot then ("C2 server connected", 200, .c2accept)
    else ("", 404, .dropped)
  else ("", 404, .ignored)

end attacker_v2

/-! ## defende_v2.py -/

namespace defender_v2

/-- `shannon_entropy` of defende_v2.py: `0.0` for the empty string, otherwise
`−Σ p(c)·log2(p(c))` over the frequency `p(c) = count(c)/len(s)` of each
distinct character (Python iterates `set(s)`; the sum is order-independent, so
we iterate the first occurrences in order). -/
noncomputable def shannon_entropy (s : String) : ℝ :=
  if s = "" then 0
  else
    let counts := s.data.dedup.map (fun x => s.data.count x)
    let probs := counts.map (fun (c : ℕ) => (c : ℝ) / s.data.length)
    Neg.neg (probs.map (fun p => p * Real.logb 2 p)).sum

/-- The feature vector returned by `extract_features_from_domain`, in the
source's return order
`[length, digits, letters, unique_chars, vowels, consonants, digit_ratio, entropy]`. -/
structure FeatureVec where
  length : Nat
  digits : Nat
  letters : Nat
  unique_chars : Nat
  vowels : Nat
  consonants : Nat
  digit_ratio : ℚ
  entropy : ℝ

/-- `extract_features_from_domain` of defende_v2.py: strip and lower-case the
domain, split the label off at the last dot (whole string when no dot), and
compute the eight lexical statistics. -/
noncomputable def extract_features_from_domain (domain : String) : FeatureVec :=
  let domain := pyLower (pyStrip domain)
  let name := if domain.data.contains '.' then String.mk (beforeLast domain.data '.') else domain
  let length := name.data.length
  let digits := (name.data.filter Char.isDigit).length
  let letters := (name.data.filter Char.isAlpha).length
  let vowels := (name.data.filter (fun c => c ∈ ("aeiou".data))).length
  let consonants := letters - vowels
  let unique_chars := name.data.dedup.length
  let digit_ratio := if 0 < length then (digits : ℚ) / length else 0
  ⟨length, digits, letters, unique_chars, vowels, consonants, digit_ratio,
   shannon_entropy name⟩

/-- What `clf.predict(X)[0]` yields: a numeric class (already coerced as
Python's `int(pred)` does) or a raw string class label. -/
inductive PredLabel where
  | num (n : Int)
  | str (s : String)

/-- The trained `DecisionTreeClassifier` as `classify_domain` consumes it:
`predict` is `clf.predict(X)[0]` and `proba` is the inner
`predict_proba`/`classes_.index` chain producing the predicted class's
posterior probability.  Either may raise, modelled as `Except.error`. -/
structure TreeModel where
  predict : FeatureVec → Except String PredLabel
  proba : FeatureVec → PredLabel → Except String ℚ

/-- `classify_domain` of defende_v2.py: returns `(verdict, confidence,
detail_source)`.  Manual block list first; without a model the fail-open
`NOT_DGA` fallback; with a model, prediction with exceptions mapped to
`("UNKNOWN", 0.0, "error")` and a probe of the posterior probability whose
own failure just zeroes the confidence. -/
noncomputable def classify_domain (domain : String) (manual_block : List String)
    (model : Option TreeModel) : String × ℚ × String :=
  let domain := pyLower (pyStrip domain)
  if domain ∈ manual_block then ("DGA", 1, "manual_block")
  else
    let feats := extract_features_from_domain domain
    match model with
    | none => ("NOT_DGA", 0, "fallback_no_model")
    | some clf =>
      match clf.predict feats with
      | .error _ => ("UNKNOWN", 0, "error")
      | .ok pred =>
        let verdict :=
          match pred with
          | .num n => if n = 1 then "DGA" else "NOT_DGA"
          | .str s => pyUpper s
        let confidence :=
          match clf.proba feats pred with
          | .ok c => c
          | .error _ => 0
        (verdict, confidence, "model")

/-- `api_block` of defende_v2.py, its effect on the block set: the submitted
domain is stripped, lower-cased and added. -/
def api_block (manual_block : List String) (domain : String) : List String :=
  manual_block ++ [pyLower (pyStrip domain)]

/-- A concrete model whose prediction raises (scikit-learn throwing on a
feature/model mismatch), used to instantiate the error-path theorems. -/
def raisingModel : TreeModel :=
  ⟨fun _ => .error "boom", fun _ _ => .error "boom"⟩

/-- A concrete model that always predicts class `0` with probability `1`,
used to instantiate the theorems that hold for every model. -/
def constModel : TreeModel :=
  ⟨fun _ => .ok (.num 0), fun _ _ => .ok 1⟩

end defender_v2

namespace attacker_v2

/-- The labels the `generate_set` dedup loop has accumulated once indices
`0, 1, …, n−1` have been considered: each index's label is appended exactly
when it is not already present. -/
def labelsUpTo (seed timestamp_str : String) (n : Nat) : List String :=
  (List.range n).foldl (fun acc j =>
    if generate_domain_label seed timestamp_str j ∈ acc then acc
    else acc ++ [generate_domain_label seed timestamp_str j]) []

end attacker_v2

end DgaLab
namespace DgaLab

/-! ## Claim theorems -/

/-- C1: the victim's and the attacker's `generate_domain_label` are the same
function — for every `(seed, timestamp_str, index, label_length)` both return
the identical label — and the function is deterministic: two calls with
identical arguments yield identical output, with no source of randomness in
its definition. -/
theorem generate_domain_label_shared :
    ∀ (seed timestamp_str : String) (index label_length : Nat),
      victim_v2.generate_domain_label seed timestamp_str index label_length
        = attacker_v2.generate_domain_label seed timestamp_str index label_length ∧
      victim_v2.generate_domain_label seed timestamp_str index label_length
        = victim_v2.generate_domain_label seed timestamp_str index label_length :=
  fun _ _ _ _ => ⟨rfl, rfl⟩

namespace defender_v2

/-- C4: a domain whose normalized form is in the manual-block set classifies
as exactly `("DGA", 1.0, "manual_block")`, whatever the model and features. -/
theorem classify_domain_manual_block (domain : String) (manual_block : List String)
    (model : Option TreeModel) (h : pyLower (pyStrip domain) ∈ manual_block) :
    classify_domain domain manual_block model = ("DGA", 1, "manual_block") := by
  simp only [classify_domain]
  rw [if_pos h]

/-- Witness for C4 at a concrete blocked domain, with a model loaded. -/
theorem classify_domain_manual_block_witness :
    classify_domain " EVIL-dga.Com" ["evil-dga.com"] (some constModel)
      = ("DGA", 1, "manual_block") :=
  classify_domain_manual_block " EVIL-dga.Com" ["evil-dga.com"] (some constModel) (by decide)

/-- C5: with no trained model loaded, any domain whose normalized form is not
manually blocked classifies as exactly `("NOT_DGA", 0.0, "fallback_no_model")`
— the deliberate fail-open default. -/
theorem classify_domain_fallback_no_model (domain : String) (manual_block : List String)
    (h : pyLower (pyStrip domain) ∉ manual_block) :
    classify_domain domain manual_block none = ("NOT_DGA", 0, "fallback_no_model") := by
  simp only [classify_domain]
  rw [if_neg h]

/-- Witness for C5 at a concrete unblocked domain. -/
theorem classify_domain_fallback_no_model_witness :
    classify_domain "example.com" [] none = ("NOT_DGA", 0, "fallback_no_model") :=
  classify_domain_fallback_no_model "example.com" [] (by decide)

/-- C6: `classify_domain` is total at its interface — its source tag is always
one of the four documented ones (so the result triple is well-formed and no
exception escapes) — and an exception during model prediction yields exactly
`("UNKNOWN", 0.0, "error")`. -/
theorem classify_domain_total (domain : String) (manual_block : List String)
    (model : Option TreeModel) :
    (classify_domain domain manual_block model).2.2
        ∈ (["manual_block", "fallback_no_model", "model", "error"] : List String) ∧
    ∀ clf e, model = some clf →
      pyLower (pyStrip domain) ∉ manual_block →
      clf.predict (extract_features_from_domain (pyLower (pyStrip domain))) = .error e →
      classify_domain domain manual_block model = ("UNKNOWN", 0, "error") := by
  constructor
  · by_cases hb : pyLower (pyStrip domain) ∈ manual_block
    · simp [classify_domain, hb]
    · cases model with
      | none => simp [classify_domain, hb]
      | some clf =>
        simp only [classify_domain, if_neg hb]
        cases hp : clf.predict (extract_features_from_domain (pyLower (pyStrip domain))) with
        | error e => simp [hp]
        | ok pred => simp [hp]
  · intro clf e hm hb hp
    subst hm
    simp only [classify_domain, if_neg hb, hp]

/-- Witness for C6: a model whose prediction raises produces the error triple. -/
theorem classify_domain_total_witness :
    classify_domain "example.com" [] (some raisingModel) = ("UNKNOWN", 0, "error") :=
  (classify_domain_total "example.com" [] (some raisingModel)).2 raisingModel "boom"
    rfl (by decide) rfl

end defender_v2

namespace victim_v2

/-- C9: the victim attempts a connection exactly when the verdict obtained
from the defender is `"NOT_DGA"`; any other verdict blocks, and a request
error, timeout or non-JSON reply — which surface as verdict `"UNKNOWN"` —
takes the fail-closed default-block branch. -/
theorem handle_domain_policy (reply : DefenderReply) :
    (handle_domain reply = .connect ↔ send_to_defender reply = .s "NOT_DGA") ∧
    ((∃ e, reply = .reqError e) ∨ reply = .nonJson →
      handle_domain reply = .blockUnknown) := by
  constructor
  · by_cases h : send_to_defender reply = .s "NOT_DGA"
    · simp [handle_domain, h]
    · by_cases h2 : send_to_defender reply = .s "DGA" <;> simp [handle_domain, h, h2]
  · rintro (⟨e, rfl⟩ | rfl) <;> simp [handle_domain, send_to_defender]

/-- Witness for C9: a non-JSON defender reply leads to the default block. -/
theorem handle_domain_policy_witness :
    handle_domain .nonJson = .blockUnknown :=
  (handle_domain_policy .nonJson).2 (Or.inr rfl)

end victim_v2

namespace attacker_v2

/-- C8: `catch_all` decides in fixed order — allow-listed full domain first
(greeting, status 200, whatever the snapshot), then label in both the label
set and the active set (C2 reply, status 200), then label in the set but not
active (empty 404 logged as dropped), else the identical empty 404 logged as
ignored. -/
theorem catch_all_cases (hostHeader path : String)
    (labels_snapshot active_snapshot : List String) :
    (requestedDomain hostHeader path ∈ ALLOWED_DOMAINS →
      catch_all hostHeader path labels_snapshot active_snapshot
        = ("hi from " ++ requestedDomain hostHeader path, 200, .greeting)) ∧
    (requestedDomain hostHeader path ∉ ALLOWED_DOMAINS →
      domain_label_from_domain (requestedDomain hostHeader path) ∈ labels_snapshot →
      domain_label_from_domain (requestedDomain hostHeader path) ∈ active_snapshot →
      catch_all hostHeader path labels_snapshot active_snapshot
        = ("C2 server connected", 200, .c2accept)) ∧
    (requestedDomain hostHeader path ∉ ALLOWED_DOMAINS →
      domain_label_from_domain (requestedDomain hostHeader path) ∈ labels_snapshot →
      domain_label_from_domain (requestedDomain hostHeader path) ∉ active_snapshot →
      catch_all hostHeader path labels_snapshot active_snapshot
        = ("", 404, .dropped)) ∧
    (requestedDomain hostHeader path ∉ ALLOWED_DOMAINS →
      domain_label_from_domain (requestedDomain hostHeader path) ∉ labels_snapshot →
      catch_all hostHeader path labels_snapshot active_snapshot
        = ("", 404, .ignored)) := by
  refine ⟨?_, ?_, ?_, ?_⟩ <;> intros <;> simp [catch_all, *]

/-- Witness for C8: the four branches at concrete requests and a concrete
snapshot. -/
theorem catch_all_cases_witness :
    catch_all "google.com" "" ["abc"] ["abc"] = ("hi from google.com", 200, .greeting) ∧
    catch_all "abc.com:8080" "" ["abc"] ["abc"] = ("C2 server connected", 200, .c2accept) ∧
    catch_all "abc.com" "" ["abc"] [] = ("", 404, .dropped) ∧
    catch_all "zzz.com" "" ["abc"] ["abc"] = ("", 404, .ignored) :=
  ⟨(catch_all_cases "google.com" "" ["abc"] ["abc"]).1 (by decide),
   (catch_all_cases "abc.com:8080" "" ["abc"] ["abc"]).2.1 (by decide) (by decide) (by decide),
   (catch_all_cases "abc.com" "" ["abc"] []).2.2.1 (by decide) (by decide) (by decide),
   (catch_all_cases "zzz.com" "" ["abc"] ["abc"]).2.2.2 (by decide) (by decide)⟩

end attacker_v2

end DgaLab
namespace DgaLab

/-! ### Normalization lemmas for Python `strip`/`lower` -/

/-- Lower-casing a character does not change whether it is whitespace. -/
theorem lowerChar_pyIsSpace (c : Char) : pyIsSpace (lowerChar c) = pyIsSpace c := by
  unfold lowerChar
  cases h : caseTable.find? (fun p => p.1 = c) with
  | none => rfl
  | some p =>
    have hp : p ∈ caseTable := List.mem_of_find?_eq_some h
    have hc : p.1 = c := by simpa using List.find?_some h
    have hfin : ∀ q ∈ caseTable, pyIsSpace q.1 = false ∧ pyIsSpace q.2 = false := by decide
    rw [← hc, (hfin p hp).1, (hfin p hp).2]

/-- Lower-casing is idempotent on characters. -/
theorem lowerChar_idem (c : Char) : lowerChar (lowerChar c) = lowerChar c := by
  cases h : caseTable.find? (fun p => p.1 = c) with
  | none => simp [lowerChar, h]
  | some p =>
    have hp : p ∈ caseTable := List.mem_of_find?_eq_some h
    have hnone : caseTable.find? (fun q => q.1 = p.2) = none := by
      rw [List.find?_eq_none]
      intro q hq
      have hfin : ∀ r ∈ caseTable, ∀ q ∈ caseTable, ¬(q.1 = r.2) := by decide
      simpa using hfin p hp q hq
    simp [lowerChar, h, hnone]

/-- A list whose head does not satisfy `p` is unchanged by `dropWhile p`. -/
theorem dropWhile_eq_self_of_head {α : Type} {p : α → Bool} {l : List α}
    (h : ∀ c, l.head? = some c → p c = false) : l.dropWhile p = l := by
  cases l with
  | nil => rfl
  | cons a t => rw [List.dropWhile_cons, h a rfl]; simp

/-- The head of `dropWhile p l` does not satisfy `p`. -/
theorem head_dropWhile_false {α : Type} {p : α → Bool} {l : List α} {c : α}
    (h : (l.dropWhile p).head? = some c) : p c = false := by
  have hnot := List.head?_dropWhile_not p l
  rw [h] at hnot
  exact hnot

/-- Stripping commutes with lower-casing. -/
theorem stripChars_map_lower (l : List Char) :
    stripChars (l.map lowerChar) = (stripChars l).map lowerChar := by
  have hpf : (pyIsSpace ∘ lowerChar) = pyIsSpace := by
    funext c
    simp [Function.comp, lowerChar_pyIsSpace]
  unfold stripChars
  rw [List.dropWhile_map, hpf, ← List.map_reverse, List.dropWhile_map, hpf,
    ← List.map_reverse]

/-- Stripping is idempotent. -/
theorem stripChars_idem (l : List Char) : stripChars (stripChars l) = stripChars l := by
  obtain ⟨t, ht⟩ := @List.dropWhile_suffix Char ((l.dropWhile pyIsSpace).reverse) pyIsSpace
  have hu : ((l.dropWhile pyIsSpace).reverse.dropWhile pyIsSpace).reverse ++ t.reverse
      = l.dropWhile pyIsSpace := by
    have hr := congrArg List.reverse ht
    simpa [List.reverse_append] using hr
  have h1 : (((l.dropWhile pyIsSpace).reverse.dropWhile pyIsSpace).reverse).dropWhile pyIsSpace
      = ((l.dropWhile pyIsSpace).reverse.dropWhile pyIsSpace).reverse := by
    apply dropWhile_eq_self_of_head
    intro d hd
    have huhead : (l.dropWhile pyIsSpace).head? = some d := by
      rw [← hu, List.head?_append, hd]
      rfl
    exact head_dropWhile_false huhead
  have h2 : ((l.dropWhile pyIsSpace).reverse.dropWhile pyIsSpace).dropWhile pyIsSpace
      = (l.dropWhile pyIsSpace).reverse.dropWhile pyIsSpace :=
    dropWhile_eq_self_of_head (fun _ hd => head_dropWhile_false hd)
  unfold stripChars
  rw [h1, List.reverse_reverse, h2]

/-- Lower-casing is idempotent on strings after a strip, and stripping an
already stripped-and-lowered string changes nothing: the normalization
`s.strip().lower()` is idempotent. -/
theorem norm_idem (s : String) :
    pyLower (pyStrip (pyLower (pyStrip s))) = pyLower (pyStrip s) := by
  have hff : (lowerChar ∘ lowerChar) = lowerChar := by
    funext c
    simp [Function.comp, lowerChar_idem]
  show String.mk ((stripChars ((stripChars s.data).map lowerChar)).map lowerChar)
      = String.mk ((stripChars s.data).map lowerChar)
  rw [stripChars_map_lower, stripChars_idem, List.map_map, hff]

namespace defender_v2

/-- C10: classification is invariant under input normalization — classifying
`d` and classifying `d.strip().lower()` give the same triple, so manual-block
matching and feature extraction are insensitive to surrounding whitespace and
letter case of the queried domain. -/
theorem classify_domain_normalization (domain : String) (manual_block : List String)
    (model : Option TreeModel) :
    classify_domain domain manual_block model
      = classify_domain (pyLower (pyStrip domain)) manual_block model := by
  simp only [classify_domain, norm_idem]

end defender_v2

end DgaLab
namespace DgaLab
namespace defender_v2

theorem shannon_entropy_empty : shannon_entropy "" = 0 := by
  unfold shannon_entropy
  simp

theorem shannon_entropy_abc123 : shannon_entropy "abc123" = Real.logb 2 6 := by
  have hne : ("abc123" : String) ≠ "" := by decide
  have hcounts : ("abc123" : String).data.dedup.map (fun x => ("abc123" : String).data.count x)
      = [1, 1, 1, 1, 1, 1] := by decide
  have hlen : ("abc123" : String).data.length = 6 := by decide
  unfold shannon_entropy
  rw [if_neg hne, hcounts]
  simp only [hlen, List.map_cons, List.map_nil, List.sum_cons, List.sum_nil,
    Nat.cast_one, Nat.cast_ofNat, add_zero]
  rw [show ((1 : ℝ) / 6) = (6 : ℝ)⁻¹ by norm_num, Real.logb_inv]
  ring

theorem extract_abc123 :
    extract_features_from_domain "abc123.com" = ⟨6, 3, 3, 6, 1, 2, 1/2, Real.logb 2 6⟩ := by
  have hnorm : pyLower (pyStrip "abc123.com") = "abc123.com" := by decide
  have hname : (if ("abc123.com" : String).data.contains '.'
      then String.mk (beforeLast ("abc123.com" : String).data '.')
      else ("abc123.com" : String)) = "abc123" := by decide
  simp only [extract_features_from_domain, hnorm, hname]
  rw [FeatureVec.mk.injEq]
  refine ⟨by decide, by decide, by decide, by decide, by decide, by decide, ?_,
    shannon_entropy_abc123⟩
  have h3 : (List.filter Char.isDigit ['a', 'b', 'c', '1', '2', '3']).length = 3 := by decide
  norm_num [h3]

theorem extract_dotcom :
    extract_features_from_domain ".com" = ⟨0, 0, 0, 0, 0, 0, 0, 0⟩ := by
  have hnorm : pyLower (pyStrip ".com") = ".com" := by decide
  have hname : (if (".com" : String).data.contains '.'
      then String.mk (beforeLast (".com" : String).data '.')
      else (".com" : String)) = "" := by decide
  simp only [extract_features_from_domain, hnorm, hname]
  rw [FeatureVec.mk.injEq]
  refine ⟨by decide, by decide, by decide, by decide, by decide, by decide, by norm_num,
    shannon_entropy_empty⟩




/-- C7: `extract_features_from_domain` computes the documented 8-tuple — at
`"abc123.com"` it returns `[6, 3, 3, 6, 1, 2, 0.5, log2 6]` (the Shannon
entropy of `"abc123"`, six equiprobable characters, being `log2 6`), the
entropy of the empty string is `0`, and an empty label (domain `".com"`)
yields the all-zero vector with digit ratio `0`. -/
theorem extract_features_values :
    extract_features_from_domain "abc123.com" = ⟨6, 3, 3, 6, 1, 2, 1/2, Real.logb 2 6⟩ ∧
    shannon_entropy "abc123" = Real.logb 2 6 ∧
    shannon_entropy "" = 0 ∧
    extract_features_from_domain ".com" = ⟨0, 0, 0, 0, 0, 0, 0, 0⟩ :=
  ⟨extract_abc123, shannon_entropy_abc123, shannon_entropy_empty, extract_dotcom⟩

end defender_v2

end DgaLab
namespace DgaLab

/-! ### Shape of the generated labels -/

/-- `bytesBE` always yields exactly `n` bytes. -/
theorem length_bytesBE (n v : Nat) : (bytesBE n v).length = n := by
  simp [bytesBE]

/-- A SHA-256 digest is exactly 32 bytes. -/
theorem sha256_length (msg : List Nat) : (sha256 msg).length = 32 := by
  simp [sha256, length_bytesBE]

/-- A SHA-256 digest is never empty. -/
theorem sha256_ne_nil (msg : List Nat) : sha256 msg ≠ [] := by
  intro h
  have := sha256_length msg
  rw [h] at this
  simp at this

/-- Every base32 alphabet lookup taken mod 32 lands in the alphabet. -/
theorem b32Alphabet_getD_mem (n : Nat) : b32Alphabet.getD (n % 32) 'A' ∈ b32Alphabet := by
  have h32 : n % 32 < 32 := Nat.mod_lt _ (by norm_num)
  have hb : ∀ k, k < 32 → b32Alphabet.getD k 'A' ∈ b32Alphabet := by decide
  exact hb _ h32

/-- Every character an encoded chunk produces is `=` or an alphabet symbol. -/
theorem mem_b32EncodeChunk {chunk : List Nat} {c : Char} (h : c ∈ b32EncodeChunk chunk) :
    c = '=' ∨ c ∈ b32Alphabet := by
  simp only [b32EncodeChunk] at h
  rcases List.mem_append.mp h with h' | h'
  · have hc := List.mem_of_mem_take h'
    obtain ⟨i, _, hi⟩ := List.mem_map.mp hc
    right
    rw [← hi]
    exact b32Alphabet_getD_mem _
  · left
    exact List.eq_of_mem_replicate h'

/-- Every character of a base32 encoding is `=` or an alphabet symbol. -/
theorem mem_b32encode {bytes : List Nat} {c : Char} (h : c ∈ b32encode bytes) :
    c = '=' ∨ c ∈ b32Alphabet := by
  obtain ⟨chunk, _, hc⟩ := List.mem_flatMap.mp h
  exact mem_b32EncodeChunk hc

/-- Lower-cased alphabet symbols are not `=`, are alphanumeric, and are
letters unless they are digits. -/
theorem b32Alphabet_lower_facts :
    ∀ a ∈ b32Alphabet, lowerChar a ≠ '=' ∧ (lowerChar a).isAlphanum = true ∧
      ((lowerChar a).isDigit = false → (lowerChar a).isAlpha = true) := by
  decide

/-- A nonempty byte string's base32 encoding contains an alphabet symbol. -/
theorem b32encode_has_alpha (b : Nat) (rest : List Nat) :
    ∃ c ∈ b32encode (b :: rest), c ∈ b32Alphabet := by
  have hchunks : b32encode (b :: rest)
      = b32EncodeChunk ((b :: rest).take 5)
          ++ (chunksGo 4 rest.length (rest.drop 4)).flatMap b32EncodeChunk := rfl
  have hk : 1 ≤ ((b :: rest).take 5).length := by
    simp [List.length_take]
  set chunk := (b :: rest).take 5 with hchunk
  set v := beCombine (chunk ++ List.replicate (5 - chunk.length) 0) with hv
  set c0 := b32Alphabet.getD ((v >>> (5 * (7 - 0))) % 32) 'A' with hc0
  have hmem : c0 ∈ b32EncodeChunk chunk := by
    simp only [b32EncodeChunk]
    apply List.mem_append_left
    have hrange : List.range 8 = [0, 1, 2, 3, 4, 5, 6, 7] := by decide
    have hdc : 2 ≤ (8 * chunk.length + 4) / 5 := by omega
    obtain ⟨d, hd⟩ : ∃ d, (8 * chunk.length + 4) / 5 = d + 1 :=
      ⟨(8 * chunk.length + 4) / 5 - 1, by omega⟩
    rw [hrange, hd]
    simp only [List.map_cons, List.take_succ_cons]
    exact List.mem_cons_self _ _
  refine ⟨c0, ?_, b32Alphabet_getD_mem _⟩
  rw [hchunks]
  exact List.mem_append_left _ hmem

end DgaLab
namespace DgaLab

/-- Every character surviving the lower-case/strip-`=`/alphanumeric filter of
a base32 encoding is alphanumeric, and a letter unless it is a digit. -/
theorem filtered_b32_facts (digest : List Nat) :
    ∀ c ∈ (((b32encode digest).map lowerChar).filter (fun c => c ≠ '=')).filter pyIsAlnum,
      c.isAlphanum = true ∧ (c.isDigit = false → c.isAlpha = true) := by
  intro c hc
  have hc1 := List.mem_of_mem_filter hc
  have hne : c ≠ '=' := by
    have := List.of_mem_filter hc1
    simpa using this
  obtain ⟨a, ha, hla⟩ := List.mem_map.mp (List.mem_of_mem_filter hc1)
  rcases mem_b32encode ha with rfl | hmem
  · exfalso
    apply hne
    rw [← hla]
    decide
  · obtain ⟨-, h2, h3⟩ := b32Alphabet_lower_facts a hmem
    rw [← hla]
    exact ⟨h2, h3⟩

/-- For a nonempty digest the filtered character list is nonempty. -/
theorem filtered_b32_ne_nil (digest : List Nat) (hne : digest ≠ []) :
    (((b32encode digest).map lowerChar).filter (fun c => c ≠ '=')).filter pyIsAlnum ≠ [] := by
  obtain ⟨b, rest, rfl⟩ := List.exists_cons_of_ne_nil hne
  obtain ⟨c, hcmem, hcalpha⟩ := b32encode_has_alpha b rest
  obtain ⟨hne', halnum, -⟩ := b32Alphabet_lower_facts c hcalpha
  have hmem : lowerChar c
      ∈ (((b32encode (b :: rest)).map lowerChar).filter (fun c => c ≠ '=')).filter pyIsAlnum := by
    apply List.mem_filter.mpr
    refine ⟨List.mem_filter.mpr ⟨List.mem_map_of_mem lowerChar hcmem, ?_⟩, ?_⟩
    · simpa using hne'
    · simpa [pyIsAlnum] using halnum
  exact List.ne_nil_of_mem hmem

namespace attacker_v2

/-- Every label the generator emits is a nonempty alphanumeric string whose
first character is a letter. -/
theorem generate_domain_label_shape (seed ts : String) (i : Nat) :
    generate_domain_label seed ts i ≠ "" ∧
    (∀ c ∈ (generate_domain_label seed ts i).data, c.isAlphanum = true) ∧
    (∀ c, (generate_domain_label seed ts i).data.head? = some c → c.isAlpha = true) := by
  have hfil := filtered_b32_ne_nil (sha256 (utf8Encode (seed ++ ":" ++ ts ++ ":" ++ Nat.repr i)))
    (sha256_ne_nil _)
  obtain ⟨c, t, hct⟩ := List.exists_cons_of_ne_nil hfil
  have hfacts := filtered_b32_facts (sha256 (utf8Encode (seed ++ ":" ++ ts ++ ":" ++ Nat.repr i)))
  have hdata : (generate_domain_label seed ts i).data
      = match ((((b32encode (sha256 (utf8Encode (seed ++ ":" ++ ts ++ ":" ++ Nat.repr i)))).map
            lowerChar).filter (fun c => c ≠ '=')).filter pyIsAlnum).take LABEL_LENGTH with
        | [] => []
        | c :: rest => if c.isDigit then 'a' :: rest else c :: rest := by
    simp only [generate_domain_label]
  have htake : (c :: t).take LABEL_LENGTH = c :: t.take 11 := rfl
  rw [hct, htake] at hdata
  dsimp only at hdata
  have hmemt : ∀ x ∈ List.take 11 t, x.isAlphanum = true := by
    intro x hx
    exact (hfacts x (by rw [hct]; exact List.mem_cons_of_mem _ (List.mem_of_mem_take hx))).1
  have hcfacts := hfacts c (by rw [hct]; exact List.mem_cons_self _ _)
  by_cases hd : c.isDigit = true
  · rw [if_pos hd] at hdata
    refine ⟨?_, ?_, ?_⟩
    · intro hemp
      rw [hemp] at hdata
      simp at hdata
    · intro x hx
      rw [hdata] at hx
      rcases List.mem_cons.mp hx with rfl | hx'
      · decide
      · exact hmemt x hx'
    · intro x hx
      rw [hdata] at hx
      simp only [List.head?_cons, Option.some.injEq] at hx
      rw [← hx]
      decide
  · rw [if_neg hd] at hdata
    refine ⟨?_, ?_, ?_⟩
    · intro hemp
      rw [hemp] at hdata
      simp at hdata
    · intro x hx
      rw [hdata] at hx
      rcases List.mem_cons.mp hx with rfl | hx'
      · exact hcfacts.1
      · exact hmemt x hx'
    · intro x hx
      rw [hdata] at hx
      simp only [List.head?_cons, Option.some.injEq] at hx
      rw [← hx]
      exact hcfacts.2 (by simpa using hd)

end attacker_v2

end DgaLab
namespace DgaLab

namespace attacker_v2

/-- Unfolding `labelsUpTo` by one loop iteration. -/
theorem labelsUpTo_succ (seed ts : String) (n : Nat) :
    labelsUpTo seed ts (n + 1)
      = if generate_domain_label seed ts n ∈ labelsUpTo seed ts n then labelsUpTo seed ts n
        else labelsUpTo seed ts n ++ [generate_domain_label seed ts n] := by
  simp [labelsUpTo, List.range_succ]

/-- The accumulated labels are pairwise distinct. -/
theorem labelsUpTo_nodup (seed ts : String) : ∀ n, (labelsUpTo seed ts n).Nodup := by
  intro n
  induction n with
  | zero => simp [labelsUpTo]
  | succ n ih =>
    rw [labelsUpTo_succ]
    split
    · exact ih
    · rename_i hnm
      simp [List.nodup_append, ih, hnm]

/-- Every accumulated label comes from the generator at some smaller index. -/
theorem labelsUpTo_mem (seed ts : String) :
    ∀ n l, l ∈ labelsUpTo seed ts n → ∃ j, j < n ∧ l = generate_domain_label seed ts j := by
  intro n
  induction n with
  | zero => simp [labelsUpTo]
  | succ n ih =>
    intro l hl
    rw [labelsUpTo_succ] at hl
    split at hl
    · obtain ⟨j, hj, hjl⟩ := ih l hl
      exact ⟨j, Nat.lt_succ_of_lt hj, hjl⟩
    · rcases List.mem_append.mp hl with h' | h'
      · obtain ⟨j, hj, hjl⟩ := ih l h'
        exact ⟨j, Nat.lt_succ_of_lt hj, hjl⟩
      · exact ⟨n, Nat.lt_succ_self n, List.mem_singleton.mp h'⟩

/-- The dedup loop, started from the accumulator reached after `i` iterations,
can only return the accumulator of some later iteration, of length exactly
`SET_SIZE`. -/
theorem collectLabels_spec (seed ts : String) :
    ∀ fuel i acc out, collectLabels seed ts fuel i acc = some out →
      acc = labelsUpTo seed ts i → acc.length ≤ SET_SIZE →
      out.length = SET_SIZE ∧ ∃ n, out = labelsUpTo seed ts n := by
  intro fuel
  induction fuel with
  | zero =>
    intro i acc out h hacc hlen
    rw [collectLabels] at h
    split at h
    · rename_i hge
      obtain rfl : acc = out := Option.some.inj h
      exact ⟨Nat.le_antisymm hlen hge, i, hacc⟩
    · cases h
  | succ fuel ih =>
    intro i acc out h hacc hlen
    rw [collectLabels] at h
    split at h
    · rename_i hge
      obtain rfl : acc = out := Option.some.inj h
      exact ⟨Nat.le_antisymm hlen hge, i, hacc⟩
    · rename_i hlt
      refine ih (i + 1) _ out h ?_ ?_
      · rw [hacc, labelsUpTo_succ]
      · split
        · omega
        · simp only [List.length_append, List.length_cons, List.length_nil]
          omega

/-- The victim's and the attacker's dedup loops are the same function. -/
theorem collectLabels_victim_eq (seed ts : String) :
    ∀ fuel i acc, victim_v2.collectLabels seed ts fuel i acc = collectLabels seed ts fuel i acc := by
  intro fuel
  induction fuel with
  | zero =>
    intro i acc
    rw [victim_v2.collectLabels, collectLabels]
    rfl
  | succ fuel ih =>
    intro i acc
    rw [victim_v2.collectLabels, collectLabels]
    by_cases hle : SET_SIZE ≤ acc.length
    · rw [if_pos hle, if_pos (show victim_v2.SET_SIZE ≤ acc.length from hle)]
    · rw [if_neg hle, if_neg (show ¬victim_v2.SET_SIZE ≤ acc.length from hle)]
      have hll : LABEL_LENGTH = 12 := rfl
      have hg : victim_v2.generate_domain_label seed ts i = generate_domain_label seed ts i 12 := rfl
      rw [hll, hg]
      exact ih (i + 1) _

/-- C2: whenever the attacker's `generate_set` returns (the dedup loop
finishes), it returns exactly `SET_SIZE` pairwise-distinct labels, each a
nonempty alphanumeric string whose first character is a letter, each produced
by the label generator, and the whole list is the dedup-in-order image of the
generator over the indices `0, 1, …, n−1` for some `n` — increasing indices
starting at `0` with duplicate-producing indices skipped; the victim's
`generate_set` runs the identical loop and returns these labels with the
`TLD_LIST` suffixes appended positionally. -/
theorem generate_set_spec (seed ts : String) (fuel : Nat) (out : List String)
    (h : generate_set seed ts fuel = some out) :
    out.length = SET_SIZE ∧ out.Nodup ∧
    (∀ l ∈ out, l ≠ "" ∧ (∀ c ∈ l.data, c.isAlphanum = true) ∧
      (∀ c, l.data.head? = some c → c.isAlpha = true) ∧
      ∃ j, l = generate_domain_label seed ts j) ∧
    (∃ n, out = labelsUpTo seed ts n) ∧
    victim_v2.generate_set seed ts fuel
      = some ((List.range out.length).map (fun idx =>
          out.getD idx "" ++ victim_v2.TLD_LIST.getD (idx % victim_v2.TLD_LIST.length) "")) := by
  have h0 : ([] : List String) = labelsUpTo seed ts 0 := by simp [labelsUpTo]
  obtain ⟨hlen, n, hout⟩ :=
    collectLabels_spec seed ts fuel 0 [] out h h0 (by simp)
  refine ⟨hlen, ?_, ?_, ⟨n, hout⟩, ?_⟩
  · rw [hout]
    exact labelsUpTo_nodup seed ts n
  · intro l hl
    obtain ⟨j, -, rfl⟩ := labelsUpTo_mem seed ts n l (hout ▸ hl)
    obtain ⟨h1, h2, h3⟩ := generate_domain_label_shape seed ts j
    exact ⟨h1, h2, h3, j, rfl⟩
  · have hco : victim_v2.collectLabels seed ts fuel 0 [] = some out := by
      rw [collectLabels_victim_eq]
      exact h
    simp only [victim_v2.generate_set, hco]
    rfl

end attacker_v2

end DgaLab
namespace DgaLab

set_option maxRecDepth 8000 in
set_option maxHeartbeats 4000000 in
/-- Witness for C2: the loop terminates at the repository's own seed and a
concrete minute window, with ten distinct labels. -/
theorem generate_set_spec_witness :
    attacker_v2.generate_set "spreadlove" "202401010000" 12
      = some ["mbhmeca4lfmu", "s4x7fvuebjla", "gbijjx7o2foq", "hfqhbo424whi",
              "hiauvnzn5iky", "fnjp63sfct3u", "zla6kojh67c7", "hcyqm3ccdb3g",
              "ogdk27esnclg", "ahrrnwkmaleq"] ∧
    (["mbhmeca4lfmu", "s4x7fvuebjla", "gbijjx7o2foq", "hfqhbo424whi",
      "hiauvnzn5iky", "fnjp63sfct3u", "zla6kojh67c7", "hcyqm3ccdb3g",
      "ogdk27esnclg", "ahrrnwkmaleq"] : List String).length = attacker_v2.SET_SIZE :=
  have h : attacker_v2.generate_set "spreadlove" "202401010000" 12
      = some ["mbhmeca4lfmu", "s4x7fvuebjla", "gbijjx7o2foq", "hfqhbo424whi",
              "hiauvnzn5iky", "fnjp63sfct3u", "zla6kojh67c7", "hcyqm3ccdb3g",
              "ogdk27esnclg", "ahrrnwkmaleq"] := by decide
  ⟨h, (attacker_v2.generate_set_spec "spreadlove" "202401010000" 12 _ h).1⟩

end DgaLab
namespace DgaLab

namespace attacker_v2

/-- Sampled elements come from the population. -/
theorem pySample_subset (pop : List String) (idxs : List Nat) :
    ∀ x ∈ pySample pop idxs, x ∈ pop := by
  intro x hx
  obtain ⟨i, -, hi⟩ := List.mem_filterMap.mp hx
  exact List.get?_mem hi

/-- With in-range positions, sampling returns one element per position. -/
theorem pySample_length (pop : List String) (idxs : List Nat)
    (h : ∀ i ∈ idxs, i < pop.length) : (pySample pop idxs).length = idxs.length := by
  induction idxs with
  | nil => rfl
  | cons i t ih =>
    have hi : i < pop.length := h i (List.mem_cons_self _ _)
    obtain ⟨x, hx⟩ : ∃ x, pop.get? i = some x := ⟨_, List.get?_eq_get hi⟩
    have ih' := ih (fun j hj => h j (List.mem_cons_of_mem _ hj))
    simp only [pySample, List.filterMap_cons, hx, List.length_cons] at ih' ⊢
    omega

/-- Sampling a duplicate-free population at distinct in-range positions yields
distinct elements. -/
theorem pySample_nodup (pop : List String) (idxs : List Nat) (hpop : pop.Nodup)
    (hidx : idxs.Nodup) (h : ∀ i ∈ idxs, i < pop.length) :
    (pySample pop idxs).Nodup := by
  induction idxs with
  | nil => simp [pySample]
  | cons i t ih =>
    have hi : i < pop.length := h i (List.mem_cons_self _ _)
    obtain ⟨x, hx⟩ : ∃ x, pop.get? i = some x := ⟨_, List.get?_eq_get hi⟩
    have ihnd := ih (List.nodup_cons.mp hidx).2 (fun j hj => h j (List.mem_cons_of_mem _ hj))
    simp only [pySample, List.filterMap_cons, hx] at ihnd ⊢
    rw [List.nodup_cons]
    refine ⟨?_, ihnd⟩
    intro hxmem
    obtain ⟨j, hj, hjx⟩ := List.mem_filterMap.mp hxmem
    have hji : j = i :=
      List.get?_inj (h j (List.mem_cons_of_mem _ hj)) hpop (by rw [hjx, hx])
    exact (List.nodup_cons.mp hidx).1 (hji ▸ hj)

/-- C3: after every published rotation step, the active set is a subset of the
simultaneously published label set and its cardinality is
`min ACTIVE_PER_SET |LabelSet|`; the hypotheses on the per-step position lists
state exactly the guarantees of `random.sample(labels, min(ACTIVE_PER_SET,
len(labels)))` (distinct in-range positions, `min ACTIVE_PER_SET SET_SIZE`
many of them, the published label set having exactly `SET_SIZE` entries). -/
theorem rotate_sets_loop_invariant (seed : String)
    (inputs : List (String × Nat × List Nat))
    (hin : ∀ e ∈ inputs, e.2.2.Nodup ∧ e.2.2.length = min ACTIVE_PER_SET SET_SIZE ∧
      ∀ i ∈ e.2.2, i < SET_SIZE) :
    ∀ st ∈ rotate_sets_loop seed inputs,
      (∀ x ∈ st.2, x ∈ st.1) ∧
      st.2.toFinset.card = min ACTIVE_PER_SET st.1.length := by
  induction inputs with
  | nil =>
    intro st hst
    simp [rotate_sets_loop] at hst
  | cons e rest ih =>
    obtain ⟨ts, fuel, idxs⟩ := e
    intro st hst
    simp only [rotate_sets_loop] at hst
    cases hstep : rotate_step seed ts fuel idxs with
    | none =>
      rw [hstep] at hst
      simp at hst
    | some pr =>
      rw [hstep] at hst
      rcases List.mem_cons.mp hst with rfl | hmem
      · obtain ⟨labels, hgen, hpr⟩ : ∃ labels, generate_set seed ts fuel = some labels ∧
            st = (labels, pySample labels idxs) := by
          simp only [rotate_step] at hstep
          cases hg : generate_set seed ts fuel with
          | none => rw [hg] at hstep; cases hstep
          | some labels =>
            rw [hg] at hstep
            exact ⟨labels, rfl, (Option.some.inj hstep).symm⟩
        subst hpr
        obtain ⟨hlen10, hnodup, -, -⟩ := generate_set_spec seed ts fuel labels hgen
        obtain ⟨hidxnd, hidxlen, hidxlt⟩ := hin (ts, fuel, idxs) (List.mem_cons_self _ _)
        have hlt : ∀ i ∈ idxs, i < labels.length := by
          rw [hlen10]
          exact hidxlt
        refine ⟨pySample_subset _ _, ?_⟩
        rw [List.toFinset_card_of_nodup (pySample_nodup _ _ hnodup hidxnd hlt),
          pySample_length _ _ hlt, hidxlen, hlen10]
      · exact ih (fun e he => hin e (List.mem_cons_of_mem _ he)) st hmem

/-- Witness for C3: the sampling hypotheses hold at one concrete rotation and
the invariant follows for every state the loop publishes there. -/
theorem rotate_sets_loop_invariant_witness :
    (∀ e ∈ [(("202401010000" : String), 12, ([0, 1, 2, 3, 4] : List Nat))],
      e.2.2.Nodup ∧ e.2.2.length = min ACTIVE_PER_SET SET_SIZE ∧
      ∀ i ∈ e.2.2, i < SET_SIZE) ∧
    ∀ st ∈ rotate_sets_loop "spreadlove" [("202401010000", 12, [0, 1, 2, 3, 4])],
      (∀ x ∈ st.2, x ∈ st.1) ∧
      st.2.toFinset.card = min ACTIVE_PER_SET st.1.length :=
  have h : ∀ e ∈ [(("202401010000" : String), 12, ([0, 1, 2, 3, 4] : List Nat))],
      e.2.2.Nodup ∧ e.2.2.length = min ACTIVE_PER_SET SET_SIZE ∧
      ∀ i ∈ e.2.2, i < SET_SIZE := by decide
  ⟨h, rotate_sets_loop_invariant "spreadlove" _ h⟩

end attacker_v2

end DgaLab
